import Mathlib

/-!
Formal model of the mslotto scraper (src/main.go).

The Go program fetches a lottery landing page, discovers game links inside a
marked container div, fetches each game page under a 75-slot semaphore, parses
two HTML tables per page into a Game record, computes an expected value per
game and writes the games, sorted by descending EV, to a CSV file.

The embedding below translates the program's pure computations directly.
HTML tokenisation (golang.org/x/net/html) is abstracted as a list of tokens,
since the program consumes the tokenizer's output token by token.  Go float64
arithmetic is modelled exactly over the rationals.  Go panics and log.Fatal
calls are made explicit: functions that can panic return Option (none = panic),
and the per-link goroutine body is modelled as a function into an explicit
outcome type.  The semaphore loop of main is modelled as a transition system.
-/

namespace Mslotto

/-! ### Character and list helpers (ASCII models of the Go strings package) -/

/-- Digit accumulation, as in the Go standard library's decimal scan:
left fold multiplying by ten and adding the digit value. -/
def digitsToNat (l : List Char) : Nat :=
  l.foldl (fun n c => 10 * n + (c.toNat - 48)) 0

/-- ASCII lower-casing of one character.  Models Go strings.ToLower on the
ASCII inputs this program feeds it (table labels and prize names). -/
def lcChar (c : Char) : Char :=
  if 'A' ≤ c ∧ c ≤ 'Z' then Char.ofNat (c.toNat + 32) else c

/-- Models Go strings.ToLower, character-wise on ASCII. -/
def toLowerChars (l : List Char) : List Char := l.map lcChar

/-- Whether `needle` is a prefix of the second list. -/
def isPrefixList : List Char → List Char → Bool
  | [], _ => true
  | _ :: _, [] => false
  | a :: t, b :: u => a == b && isPrefixList t u

/-- Models Go strings.Contains needle-in-haystack (substring test). -/
def containsList (needle : List Char) : List Char → Bool
  | [] => needle.isEmpty
  | b :: u => isPrefixList needle (b :: u) || containsList needle u

/-- Worker for `splitOnChar`: returns the segment before the first separator
and the list of the remaining segments. -/
def splitOnCharAux (c : Char) : List Char → List Char × List (List Char)
  | [] => ([], [])
  | a :: t =>
    let p := splitOnCharAux c t
    if a = c then ([], p.1 :: p.2) else (a :: p.1, p.2)

/-- Models Go strings.Split with a one-character separator: the list of
segments between separators (always nonempty, `count c l + 1` segments). -/
def splitOnChar (c : Char) (l : List Char) : List (List Char) :=
  (splitOnCharAux c l).1 :: (splitOnCharAux c l).2

/-- Models Go strings.Trim with cutset "/": drop slashes from both ends. -/
def trimSlashes (l : List Char) : List Char :=
  ((l.dropWhile (fun c => c = '/')).reverse.dropWhile (fun c => c = '/')).reverse

/-- Models Go strings.TrimSpace on the ASCII whitespace this program meets. -/
def trimSpace (l : List Char) : List Char :=
  let ws := fun c => c = ' ' ∨ c = '\t' ∨ c = '\n' ∨ c = '\r'
  ((l.dropWhile (fun c => decide (ws c))).reverse.dropWhile (fun c => decide (ws c))).reverse

/-! ### Models of the Go standard library number conversions -/

/-- The value of a nonempty all-digit list, `none` otherwise. -/
def decDigits? (l : List Char) : Option Nat :=
  if l ≠ [] ∧ l.all Char.isDigit then some (digitsToNat l) else none

/-- Syntactic part of Go strconv.Atoi: an optional sign followed by at least
one decimal digit, valuated exactly; `none` on any other input. -/
def atoiSyntax : List Char → Option Int
  | '+' :: t => (decDigits? t).map (fun n => (n : Int))
  | '-' :: t => (decDigits? t).map (fun n => -(n : Int))
  | l => (decDigits? l).map (fun n => (n : Int))

/-- Largest value of the 64-bit Go int. -/
def intMax64 : Int := 9223372036854775807

/-- Smallest value of the 64-bit Go int. -/
def intMin64 : Int := -9223372036854775808

/-- Models Go strconv.Atoi with the error discarded, as the program does
(`n, _ := strconv.Atoi(s)`): syntax errors yield 0, out-of-range values are
clamped to the 64-bit int range (Go returns the clamped value with ErrRange). -/
def goAtoi (l : List Char) : Int :=
  match atoiSyntax l with
  | none => 0
  | some v => if v > intMax64 then intMax64 else if v < intMin64 then intMin64 else v

/-- The syntactic pieces of a decimal float literal: mantissa sign, integer
digits, fraction digits, exponent sign and exponent digits (empty exponent
digits meaning no exponent part was present). -/
structure FloatParts where
  neg : Bool
  ip : List Char
  fp : List Char
  eneg : Bool
  ed : List Char
deriving DecidableEq, Repr

/-- The syntax scan of Go strconv.ParseFloat restricted to the plain decimal
syntax (optional sign, digits with an optional fractional part, optional
decimal exponent).  The non-finite forms Inf and NaN and the hexadecimal and
underscore syntaxes, which never occur in the odds strings this program
parses, are mapped to `none`. -/
def parseFloatSyntax (l : List Char) : Option FloatParts :=
  let sp : Bool × List Char :=
    match l with
    | '+' :: t => (false, t)
    | '-' :: t => (true, t)
    | t => (false, t)
  let ip := sp.2.takeWhile Char.isDigit
  let l2 := sp.2.dropWhile Char.isDigit
  let fr : List Char × List Char :=
    match l2 with
    | '.' :: t => (t.takeWhile Char.isDigit, t.dropWhile Char.isDigit)
    | t => ([], t)
  if ip = [] ∧ fr.1 = [] then none
  else
    match fr.2 with
    | [] => some { neg := sp.1, ip := ip, fp := fr.1, eneg := false, ed := [] }
    | e :: t =>
      if e = 'e' ∨ e = 'E' then
        let esp : Bool × List Char :=
          match t with
          | '+' :: r => (false, r)
          | '-' :: r => (true, r)
          | r => (false, r)
        let ed := esp.2.takeWhile Char.isDigit
        let t2 := esp.2.dropWhile Char.isDigit
        if ed = [] ∨ t2 ≠ [] then none
        else some { neg := sp.1, ip := ip, fp := fr.1, eneg := esp.1, ed := ed }
      else none

/-- The exact rational value of a parsed decimal float literal. -/
def floatValue (p : FloatParts) : ℚ :=
  let mant : ℚ := (digitsToNat p.ip : ℚ) + (digitsToNat p.fp : ℚ) / (10 : ℚ) ^ p.fp.length
  let v : ℚ :=
    if p.ed = [] then mant
    else mant * (10 : ℚ) ^ ((if p.eneg then (-1 : Int) else 1) * (digitsToNat p.ed : Int))
  if p.neg then -v else v

/-- Models Go strconv.ParseFloat with the error discarded: the syntax scan
followed by exact valuation in ℚ. -/
def goParseFloat (l : List Char) : Option ℚ :=
  (parseFloatSyntax l).map floatValue

/-- Models Go math.Round: round to nearest, halves away from zero. -/
def goRound (q : ℚ) : Int :=
  if 0 ≤ q then ⌊q + 1 / 2⌋ else -⌊-q + 1 / 2⌋

/-! ### Data model (src/main.go lines 22-38) -/

/-- One prize-schedule row: payout value and original/remaining winner counts. -/
structure PrizeTier where
  Value : Int
  OriginalCount : Int
  RemainingCount : Int
deriving DecidableEq, Repr

/-- A scratch-ticket game, as built by BuildGame.  GameNumber is declared in
the Go struct but never assigned, so it always carries the zero value. -/
structure Game where
  Name : String
  Price : Int
  Odds : ℚ
  LaunchDate : String
  GameNumber : Int
  PrizeTiers : List PrizeTier
  TotalOriginalPrizes : Int
  TotalRemainingPrizes : Int
  URL : String
deriving DecidableEq, Repr

/-! ### Cell parsers (src/main.go lines 234-253) -/

/-- The two ReplaceAll calls of parseDollar: every dollar sign removed, then
every comma removed. -/
def stripPrice (l : List Char) : List Char :=
  (l.filter (fun c => decide (c ≠ '$'))).filter (fun c => decide (c ≠ ','))

/-- parseDollar: strip "$" and "," everywhere, then Atoi with the error
discarded (malformed remainder yields 0). -/
def parseDollar (s : String) : Int :=
  goAtoi (stripPrice s.data)

/-- parseOdds: split on ":"; unless exactly two parts result, return 0;
otherwise ParseFloat the right-hand part with the error discarded. -/
def parseOdds (s : String) : ℚ :=
  match splitOnChar ':' s.data with
  | [_, rhs] => (goParseFloat rhs).getD 0
  | _ => 0

/-- parseInt: remove every comma, then Atoi with the error discarded. -/
def parseInt (s : String) : Int :=
  goAtoi (s.data.filter (fun c => decide (c ≠ ',')))

/-! ### Table parsers (src/main.go lines 189-232) -/

/-- ParseMetaData: fold over the rows; rows with fewer than two cells are
skipped; the first matching label of the switch wins per row and later rows
overwrite earlier ones.  Result is (price, odds, launchDate). -/
def ParseMetaData (table : List (List String)) : Int × ℚ × String :=
  table.foldl (fun acc row =>
    match row with
    | c0 :: c1 :: _ =>
      let key := toLowerChars c0.data
      if containsList (("ticket price").data) key then (parseDollar c1, acc.2.1, acc.2.2)
      else if containsList (("overall odds").data) key then (acc.1, parseOdds c1, acc.2.2)
      else if containsList (("launch date").data) key then (acc.1, acc.2.1, c1)
      else acc
    | _ => acc) (0, 0, "")

/-- The loop body of ParsePrizes over the rows after the header: rows with
fewer than three cells are skipped, rows whose first cell contains
"2nd chance" (case-insensitive) are skipped, the rest become PrizeTiers. -/
def parsePrizeRows : List (List String) → List PrizeTier
  | [] => []
  | row :: rest =>
    match row with
    | c0 :: c1 :: c2 :: _ =>
      if containsList (("2nd chance").data) (toLowerChars c0.data) then parsePrizeRows rest
      else { Value := parseDollar c0, OriginalCount := parseInt c1,
             RemainingCount := parseInt c2 } :: parsePrizeRows rest
    | _ => parsePrizeRows rest

/-- ParsePrizes: `table[1:]` panics in Go when the table has no rows, which is
modelled by `none`; otherwise the header row is dropped and the rest parsed. -/
def ParsePrizes : List (List String) → Option (List PrizeTier)
  | [] => none
  | _ :: rows => some (parsePrizeRows rows)

/-- The accumulation loop of BuildGame: running sums of the original and
remaining counts over the prize tiers. -/
def totals (tiers : List PrizeTier) : Int × Int :=
  tiers.foldl (fun acc p => (acc.1 + p.OriginalCount, acc.2 + p.RemainingCount)) (0, 0)

/-- BuildGame (src/main.go lines 286-309).  The Go body indexes `tables[0]`
and `tables[1]` unconditionally and ParsePrizes slices off the header row
unconditionally; each of those panics is modelled by `none` (a list with
fewer than two tables fails the first pattern here exactly when the Go
indexing would panic). -/
def BuildGame (tables : List (List (List String))) (name url : String) : Option Game :=
  match tables with
  | meta :: prizeTable :: _ =>
    match ParsePrizes prizeTable with
    | some prizeTiers =>
      let md := ParseMetaData meta
      let tot := totals prizeTiers
      some { Name := name, Price := md.1, Odds := md.2.1, LaunchDate := md.2.2,
             GameNumber := 0, PrizeTiers := prizeTiers,
             TotalOriginalPrizes := tot.1, TotalRemainingPrizes := tot.2, URL := url }
    | none => none
  | _ => none

/-! ### Ticket estimates and expected value (src/main.go lines 255-277) -/

/-- OriginalTickets: `int(math.Round(g.Odds * float64(g.TotalOriginalPrizes)))`. -/
def Game.OriginalTickets (g : Game) : Int :=
  goRound (g.Odds * (g.TotalOriginalPrizes : ℚ))

/-- RemainingTickets: `int(math.Round(g.Odds * float64(g.TotalRemainingPrizes)))`. -/
def Game.RemainingTickets (g : Game) : Int :=
  goRound (g.Odds * (g.TotalRemainingPrizes : ℚ))

/-- The accumulation loop of Game.EV: tiers with a nonpositive remaining count
or nonpositive value are skipped, the others add (remaining / remainingTickets)
times the value to the accumulator. -/
def expectedWinLoop (rt : Int) : List PrizeTier → ℚ → ℚ
  | [], acc => acc
  | p :: rest, acc =>
    if p.RemainingCount ≤ 0 ∨ p.Value ≤ 0 then expectedWinLoop rt rest acc
    else expectedWinLoop rt rest
      (acc + (p.RemainingCount : ℚ) / (rt : ℚ) * (p.Value : ℚ))

/-- Game.EV: the face price when RemainingTickets is zero, otherwise the price
minus the accumulated expected win. -/
def Game.EV (g : Game) : ℚ :=
  let rt := g.RemainingTickets
  if rt = 0 then (g.Price : ℚ)
  else (g.Price : ℚ) - expectedWinLoop rt g.PrizeTiers 0

/-- The probability-weighted sum of the spec's EV definition (section 4.5),
written from the spec's words: over each tier with positive remaining count
and positive value, remainingCount / RemainingTickets × value. -/
def weightedSum (rt : Int) (tiers : List PrizeTier) : ℚ :=
  ((tiers.filter (fun p => decide (0 < p.RemainingCount ∧ 0 < p.Value))).map
    (fun p => (p.RemainingCount : ℚ) / (rt : ℚ) * (p.Value : ℚ))).sum

/-- The spec's reference EV definition (section 4.5), written from the spec's
words: price when RemainingTickets is 0, otherwise price minus the
probability-weighted sum over the qualifying tiers. -/
def EVspec (g : Game) : ℚ :=
  let rt := goRound (g.Odds * (g.TotalRemainingPrizes : ℚ))
  if rt = 0 then (g.Price : ℚ)
  else (g.Price : ℚ) - weightedSum rt g.PrizeTiers

/-! ### HTML token stream

The program reads pages through golang.org/x/net/html's tokenizer and consumes
one token at a time.  A page is therefore embedded as the list of tokens the
tokenizer would produce; the ErrorToken that ends every Go tokenizer stream is
the end of the list. -/

/-- One attribute of a tag token: key and value. -/
structure Attr where
  key : String
  val : String
deriving DecidableEq, Repr

/-- A token of the HTML tokenizer: start tag with attributes, end tag, or
text.  Tag names arrive lower-cased, as the Go tokenizer delivers them. -/
inductive Tok where
  | start (name : String) (attrs : List Attr)
  | endTag (name : String)
  | text (s : String)
deriving DecidableEq, Repr

/-- The class attribute value marking the active-games container. -/
def gameboxClass : String := "col-lg-3 gamebox"

/-- The loop body of GetLinks (src/main.go lines 59-102), one token per step,
carrying inActiveSession, divDepth and the collected links.  On a div start
tag the marker class sets the session and resets the depth to 1, then the
nested-div branch increments the depth exactly under the Go condition
`inActiveSession && !(token.Data == "div" && divDepth == 1)`; on a div end tag
inside the session the depth is decremented and the session ends at zero;
start-tag anchors inside the session contribute every href attribute value. -/
def getLinksLoop : List Tok → Bool → Int → List String → List String
  | [], _, _, links => links
  | t :: rest, inActiveSession, divDepth, links =>
    match t with
    | Tok.start name attrs =>
      let st : Bool × Int :=
        if name = "div" then
          let found := attrs.any (fun a => decide (a.key = "class" ∧ a.val = gameboxClass))
          let s1 : Bool × Int := if found then (true, 1) else (inActiveSession, divDepth)
          if s1.1 ∧ ¬(name = "div" ∧ s1.2 = 1) then (s1.1, s1.2 + 1) else s1
        else (inActiveSession, divDepth)
      let links2 :=
        if st.1 ∧ name = "a" then
          links ++ attrs.filterMap (fun a => if a.key = "href" then some a.val else none)
        else links
      getLinksLoop rest st.1 st.2 links2
    | Tok.endTag name =>
      if name = "div" ∧ inActiveSession then
        let d := divDepth - 1
        getLinksLoop rest (if d = 0 then false else inActiveSession) d links
      else getLinksLoop rest inActiveSession divDepth links
    | Tok.text _ => getLinksLoop rest inActiveSession divDepth links

/-- GetLinks over a token stream.  In the Go source GetLinks first fetches the
landing page (GetHTML, fatal on any failure) and then runs this scan over the
resulting token stream; the fetched stream is the argument here. -/
def GetLinks (toks : List Tok) : List String :=
  getLinksLoop toks false 0 []

/-- The loop body of ExtractTables (src/main.go lines 124-177), one token per
step, carrying the inTable/inRow/inCell flags, the finished tables, the
current table and the current row. -/
def extractLoop : List Tok → Bool → Bool → Bool →
    List (List (List String)) → List (List String) → List String →
    List (List (List String))
  | [], _, _, _, tables, _, _ => tables
  | t :: rest, inTable, inRow, inCell, tables, curTable, curRow =>
    match t with
    | Tok.start name _ =>
      if name = "table" then extractLoop rest true inRow inCell tables [] curRow
      else if name = "tr" then
        if inTable then extractLoop rest inTable true inCell tables curTable []
        else extractLoop rest inTable inRow inCell tables curTable curRow
      else if name = "td" ∨ name = "th" then
        if inRow then extractLoop rest inTable inRow true tables curTable curRow
        else extractLoop rest inTable inRow inCell tables curTable curRow
      else extractLoop rest inTable inRow inCell tables curTable curRow
    | Tok.endTag name =>
      if name = "td" ∨ name = "th" then
        extractLoop rest inTable inRow false tables curTable curRow
      else if name = "tr" then
        if inRow then extractLoop rest inTable false inCell tables (curTable ++ [curRow]) curRow
        else extractLoop rest inTable inRow inCell tables curTable curRow
      else if name = "table" then
        if inTable then extractLoop rest false inRow inCell (tables ++ [curTable]) curTable curRow
        else extractLoop rest inTable inRow inCell tables curTable curRow
      else extractLoop rest inTable inRow inCell tables curTable curRow
    | Tok.text s =>
      if inCell then
        let txt := trimSpace s.data
        if txt ≠ [] then extractLoop rest inTable inRow inCell tables curTable (curRow ++ [String.mk txt])
        else extractLoop rest inTable inRow inCell tables curTable curRow
      else extractLoop rest inTable inRow inCell tables curTable curRow

/-- ExtractTables over a token stream (src/main.go lines 113-178). -/
def ExtractTables (toks : List Tok) : List (List (List String)) :=
  extractLoop toks false false false [] [] []

/-- exctractGameName (src/main.go lines 279-285, the source's spelling): trim
slashes, split on "/", and when more than one part results take the last part
with hyphens replaced by spaces, otherwise return the URL unchanged. -/
def exctractGameName (url : String) : String :=
  let parts := splitOnChar '/' (trimSlashes url.data)
  if parts.length > 1 then
    String.mk ((parts.getLast?.getD []).map (fun c => if c = '-' then ' ' else c))
  else url

/-! ### Per-link fetch outcome (src/main.go lines 105-111, 179-187, 345-357)

A game-page fetch has three possible outcomes: the transport-level http.Get
fails, the body read fails, or a body arrives (embedded as its token stream).
GamePage calls log.Fatal on the first, so that outcome terminates the whole
process; on the second ParseGame logs the error and returns nil tables. -/

/-- Outcome of fetching one game page. -/
inductive FetchResult where
  | transportErr
  | readErr (msg : String)
  | ok (toks : List Tok)

/-- Result of running one per-link goroutine body to its end: the process was
terminated by log.Fatal, the goroutine panicked, or a Game was appended. -/
inductive LinkResult where
  | fatal
  | panicked
  | built (g : Game)
deriving DecidableEq

/-- The body of the per-link goroutine in main (src/main.go lines 347-357)
composed with GamePage and ParseGame for a given fetch outcome: a transport
error hits GamePage's log.Fatal; a read error makes ParseGame return nil
tables, and BuildGame's indexing then panics; otherwise BuildGame runs on the
extracted tables. -/
def runLink (f : FetchResult) (url : String) : LinkResult :=
  match f with
  | FetchResult.transportErr => LinkResult.fatal
  | FetchResult.readErr _ =>
    match BuildGame [] (exctractGameName url) url with
    | none => LinkResult.panicked
    | some g => LinkResult.built g
  | FetchResult.ok toks =>
    match BuildGame (ExtractTables toks) (exctractGameName url) url with
    | none => LinkResult.panicked
    | some g => LinkResult.built g

/-! ### Report order (src/main.go lines 362-364, 311-338)

main sorts the games with `sort.Slice` under the comparison
`games[i].EV() > games[j].EV()` and WriteCSV then emits one CSV row per game
in list order.  The sort is modelled by insertion with that comparison, a
sort that, like Go's, orders the list so that no earlier element compares
greater-after-later and permutes nothing else. -/

/-- Insert a game before the first element with strictly smaller EV. -/
def insertByEV (g : Game) : List Game → List Game
  | [] => [g]
  | h :: t => if h.EV < g.EV then g :: h :: t else h :: insertByEV g t

/-- The sort of main: descending EV. -/
def sortGames (gs : List Game) : List Game :=
  gs.foldr insertByEV []

/-! ### The semaphore of main (src/main.go lines 340-361)

main makes a buffered channel of capacity 75, sends one value into it before
launching each per-link goroutine, and each goroutine receives one value when
it finishes; after the launch loop main sends 75 more values before sorting
and writing.  The state below counts links not yet launched, goroutines in
flight, goroutines finished, final-loop sends done, and channel occupancy. -/

/-- The channel capacity, `make(chan struct{}, 75)`. -/
def semCap : Nat := 75

/-- State of main's semaphore discipline. -/
structure OrchState where
  pending : Nat
  running : Nat
  done : Nat
  fills : Nat
  slots : Nat
deriving DecidableEq, Repr

/-- Initial state: N discovered links, nothing launched. -/
def initState (N : Nat) : OrchState :=
  { pending := N, running := 0, done := 0, fills := 0, slots := 0 }

/-- One step of main's concurrency: launching a goroutine (main's send into
the channel, enabled while the channel is not full), a goroutine finishing
(its deferred receive), or one send of the final reacquisition loop (which
main only reaches once every link is launched). -/
inductive OrchStep : OrchState → OrchState → Prop
  | launch (s : OrchState) (h1 : 0 < s.pending) (h2 : s.slots < semCap) :
      OrchStep s { pending := s.pending - 1, running := s.running + 1,
                   done := s.done, fills := s.fills, slots := s.slots + 1 }
  | finish (s : OrchState) (h : 0 < s.running) :
      OrchStep s { pending := s.pending, running := s.running - 1,
                   done := s.done + 1, fills := s.fills, slots := s.slots - 1 }
  | fill (s : OrchState) (hp : s.pending = 0) (h2 : s.slots < semCap)
      (h3 : s.fills < semCap) :
      OrchStep s { pending := s.pending, running := s.running,
                   done := s.done, fills := s.fills + 1, slots := s.slots + 1 }

/-- States reachable from the initial state with N links. -/
inductive Reachable (N : Nat) : OrchState → Prop
  | init : Reachable N (initState N)
  | step {s t : OrchState} : Reachable N s → OrchStep s t → Reachable N t

/-- The inductive invariant of main's semaphore discipline. -/
def OrchInv (N : Nat) (s : OrchState) : Prop :=
  s.slots = s.running + s.fills ∧ s.slots ≤ semCap ∧
    s.pending + s.running + s.done = N ∧ (0 < s.fills → s.pending = 0)

/-! ### Fixtures used by concrete witnesses -/

/-- The metadata-table fixture of the spec's round-trip property. -/
def fixtureMeta : List (List String) :=
  [["Ticket Price", "$5"], ["Overall Odds", "1:3.50"], ["Launch Date", "2023-01-01"]]

/-- The prize-table rows of the spec's round-trip property (after a header). -/
def fixturePrizeRows : List (List String) :=
  [["$100", "50", "10"], ["2nd Chance", "5", "5"]]

/-- The Game the fixtures build. -/
def fixtureGame : Game :=
  { Name := "n", Price := 5, Odds := 7 / 2, LaunchDate := "2023-01-01",
    GameNumber := 0, PrizeTiers := [{ Value := 100, OriginalCount := 50, RemainingCount := 10 }],
    TotalOriginalPrizes := 50, TotalRemainingPrizes := 10, URL := "u" }

/-- The fixture game with no remaining prizes. -/
def fixtureGameZero : Game :=
  { fixtureGame with TotalRemainingPrizes := 0 }

/-- A token stream with the marker container holding a nested div that closes
before an anchor that is still inside the marker container. -/
def nestedDivPage : List Tok :=
  [Tok.start ("div") [{ key := "class", val := gameboxClass }],
   Tok.start ("div") [],
   Tok.endTag ("div"),
   Tok.start ("a") [{ key := "href", val := "https://g/x" }],
   Tok.endTag ("a"),
   Tok.endTag ("div")]

/-- The fixture landing page of the spec: a marked container with two anchors
and unrelated anchors outside it. -/
def fixtureLanding : List Tok :=
  [Tok.start ("a") [{ key := "href", val := "https://outside/1" }],
   Tok.endTag ("a"),
   Tok.start ("div") [{ key := "class", val := gameboxClass }],
   Tok.start ("a") [{ key := "href", val := "https://g/1" }],
   Tok.endTag ("a"),
   Tok.start ("a") [{ key := "href", val := "https://g/2" }],
   Tok.endTag ("a"),
   Tok.endTag ("div"),
   Tok.start ("a") [{ key := "href", val := "https://outside/2" }],
   Tok.endTag ("a")]

/-! ## Theorems -/

/-! ### Helper lemmas -/

/-- splitOnCharAux produces one tail segment per separator occurrence. -/
theorem splitOnCharAux_count (c : Char) (l : List Char) :
    (splitOnCharAux c l).2.length = l.count c := by
  induction l with
  | nil => rfl
  | cons a t ih =>
    by_cases h : a = c
    · simp [splitOnCharAux, h, ih, List.count_cons]
    · simp [splitOnCharAux, h, ih, List.count_cons, Ne.symm h]

/-- On a separator-free list, splitOnCharAux returns the list whole. -/
theorem splitOnCharAux_of_not_mem (c : Char) (l : List Char) (h : c ∉ l) :
    splitOnCharAux c l = (l, []) := by
  induction l with
  | nil => rfl
  | cons a t ih =>
    rw [List.mem_cons, not_or] at h
    have ha : ¬a = c := fun he => h.1 he.symm
    simp [splitOnCharAux, ha, ih h.2]

/-- The EV accumulation loop equals the accumulator plus the spec's
probability-weighted sum. -/
theorem expectedWinLoop_eq (rt : Int) (l : List PrizeTier) :
    ∀ acc : ℚ, expectedWinLoop rt l acc = acc + weightedSum rt l := by
  induction l with
  | nil => intro acc; simp [expectedWinLoop, weightedSum]
  | cons p rest ih =>
    intro acc
    show (if p.RemainingCount ≤ 0 ∨ p.Value ≤ 0 then expectedWinLoop rt rest acc
        else expectedWinLoop rt rest
          (acc + (p.RemainingCount : ℚ) / (rt : ℚ) * (p.Value : ℚ)))
      = acc + weightedSum rt (p :: rest)
    by_cases h : p.RemainingCount ≤ 0 ∨ p.Value ≤ 0
    · rw [if_pos h, ih]
      have hf : decide (0 < p.RemainingCount ∧ 0 < p.Value) = false := by
        rw [decide_eq_false_iff_not]
        omega
      unfold weightedSum
      rw [List.filter_cons, hf]
      simp
    · rw [if_neg h, ih]
      have ht : decide (0 < p.RemainingCount ∧ 0 < p.Value) = true := by
        rw [decide_eq_true_eq]
        omega
      unfold weightedSum
      rw [List.filter_cons, ht, if_pos rfl]
      simp only [List.map_cons, List.sum_cons]
      ring

/-- The totals fold of BuildGame computes the sums of the tier counts. -/
theorem totals_fold_eq (l : List PrizeTier) :
    ∀ a b : Int,
      l.foldl (fun acc p => (acc.1 + p.OriginalCount, acc.2 + p.RemainingCount)) (a, b) =
        (a + (l.map PrizeTier.OriginalCount).sum, b + (l.map PrizeTier.RemainingCount).sum) := by
  induction l with
  | nil => intro a b; simp
  | cons p rest ih =>
    intro a b
    simp only [List.foldl_cons, List.map_cons, List.sum_cons, ih, Prod.mk.injEq]
    constructor <;> ring

/-- goRound at a nonnegative argument whose half-up shift lies in [n, n+1). -/
theorem goRound_eq (q : ℚ) (n : Int) (h0 : 0 ≤ q) (h1 : (n : ℚ) ≤ q + 1 / 2)
    (h2 : q + 1 / 2 < n + 1) : goRound q = n := by
  unfold goRound
  rw [if_pos h0, Int.floor_eq_iff]
  exact ⟨h1, h2⟩

/-- goRound 0 = 0: the rounded ticket estimate of a zero product. -/
theorem goRound_zero : goRound 0 = 0 :=
  goRound_eq 0 0 le_rfl (by norm_num) (by norm_num)

/-- Inserting preserves the games as a multiset. -/
theorem insertByEV_perm (g : Game) (l : List Game) :
    List.Perm (insertByEV g l) (g :: l) := by
  induction l with
  | nil => exact List.Perm.refl _
  | cons h t ih =>
    unfold insertByEV
    by_cases hc : h.EV < g.EV
    · rw [if_pos hc]
    · rw [if_neg hc]
      exact (ih.cons h).trans (List.Perm.swap g h t)

/-- Inserting preserves the non-increasing-EV order. -/
theorem insertByEV_pairwise (g : Game) (l : List Game)
    (hl : l.Pairwise (fun a b => b.EV ≤ a.EV)) :
    (insertByEV g l).Pairwise (fun a b => b.EV ≤ a.EV) := by
  induction l with
  | nil => simp [insertByEV]
  | cons h t ih =>
    rw [List.pairwise_cons] at hl
    obtain ⟨hh, ht⟩ := hl
    unfold insertByEV
    by_cases hc : h.EV < g.EV
    · rw [if_pos hc]
      refine List.Pairwise.cons ?_ (List.Pairwise.cons hh ht)
      intro x hx
      rcases List.mem_cons.mp hx with rfl | hx2
      · exact le_of_lt hc
      · exact le_trans (hh x hx2) (le_of_lt hc)
    · rw [if_neg hc]
      refine List.Pairwise.cons ?_ (ih ht)
      intro x hx
      rcases List.mem_cons.mp ((insertByEV_perm g t).mem_iff.mp hx) with rfl | hx2
      · exact not_lt.mp hc
      · exact hh x hx2

/-- An OrchStep preserves the semaphore invariant. -/
theorem orchStep_inv {N : Nat} {s t : OrchState} (hs : OrchInv N s) (h : OrchStep s t) :
    OrchInv N t := by
  cases h with
  | launch h1 h2 =>
    unfold OrchInv semCap at hs ⊢
    unfold semCap at h2
    dsimp only at hs ⊢
    omega
  | finish h1 =>
    unfold OrchInv semCap at hs ⊢
    dsimp only at hs ⊢
    omega
  | fill hp h2 h3 =>
    unfold OrchInv semCap at hs ⊢
    unfold semCap at h2 h3
    dsimp only at hs ⊢
    omega

/-- Every reachable state satisfies the semaphore invariant. -/
theorem orch_inv (N : Nat) (s : OrchState) (h : Reachable N s) : OrchInv N s := by
  induction h with
  | init =>
    unfold OrchInv initState semCap
    dsimp only
    omega
  | step hr hstep ih => exact orchStep_inv ih hstep

/-- The final reacquisition loop can run to completion from an empty run. -/
theorem reach_fill : ∀ k : Nat, k ≤ semCap →
    Reachable 0 { pending := 0, running := 0, done := 0, fills := k, slots := k }
  | 0, _ => Reachable.init
  | n + 1, hk =>
    Reachable.step (reach_fill n (Nat.le_of_succ_le hk)) (OrchStep.fill _ rfl hk hk)

/-- The fixture odds fraction: ParseFloat on "3.50" yields exactly 7/2. -/
theorem goParseFloat_350 : goParseFloat ['3', '.', '5', '0'] = some (7 / 2) := by
  have hs : parseFloatSyntax ['3', '.', '5', '0'] =
      some { neg := false, ip := ['3'], fp := ['5', '0'], eneg := false, ed := [] } := by
    decide
  have h3 : digitsToNat ['3'] = 3 := by decide
  have h50 : digitsToNat ['5', '0'] = 50 := by decide
  unfold goParseFloat
  rw [hs]
  show some (floatValue { neg := false, ip := ['3'], fp := ['5', '0'], eneg := false, ed := [] })
    = some (7 / 2)
  unfold floatValue
  norm_num [h3, h50]

/-- parseOdds on the fixture odds cell. -/
theorem parseOdds_fixture : parseOdds ("1:3.50") = 7 / 2 := by
  have hsplit : splitOnChar ':' ("1:3.50").data = [['1'], ['3', '.', '5', '0']] := by decide
  unfold parseOdds
  rw [hsplit]
  show (goParseFloat ['3', '.', '5', '0']).getD 0 = 7 / 2
  rw [goParseFloat_350]
  rfl

/-- BuildGame on the spec's fixture pair of tables, any header row. -/
theorem buildGame_fixture_eq (hdr : List String) (name url : String) :
    BuildGame [fixtureMeta, hdr :: fixturePrizeRows] name url =
      some { Name := name, Price := 5, Odds := 7 / 2, LaunchDate := "2023-01-01",
             GameNumber := 0,
             PrizeTiers := [{ Value := 100, OriginalCount := 50, RemainingCount := 10 }],
             TotalOriginalPrizes := 50, TotalRemainingPrizes := 10, URL := url } := by
  have hbg : BuildGame [fixtureMeta, hdr :: fixturePrizeRows] name url =
      some { Name := name, Price := (ParseMetaData fixtureMeta).1,
             Odds := (ParseMetaData fixtureMeta).2.1,
             LaunchDate := (ParseMetaData fixtureMeta).2.2, GameNumber := 0,
             PrizeTiers := parsePrizeRows fixturePrizeRows,
             TotalOriginalPrizes := (totals (parsePrizeRows fixturePrizeRows)).1,
             TotalRemainingPrizes := (totals (parsePrizeRows fixturePrizeRows)).2,
             URL := url } := rfl
  have hmeta : ParseMetaData fixtureMeta = (5, parseOdds ("1:3.50"), "2023-01-01") := by
    show (parseDollar ("$5"), parseOdds ("1:3.50"), ("2023-01-01" : String))
      = (5, parseOdds ("1:3.50"), "2023-01-01")
    rw [show parseDollar ("$5") = 5 from by decide]
  have hrows : parsePrizeRows fixturePrizeRows =
      [{ Value := 100, OriginalCount := 50, RemainingCount := 10 }] := by decide
  rw [hbg, hmeta, hrows, parseOdds_fixture]
  rfl

/-- The fixture game's RemainingTickets estimate: round(3.5 × 10) = 35. -/
theorem fixtureGame_rt : fixtureGame.RemainingTickets = 35 := by
  show goRound (7 / 2 * ((10 : Int) : ℚ)) = 35
  apply goRound_eq <;> norm_num

/-- The fixture game's probability-weighted sum: (10/35) × 100 = 200/7. -/
theorem fixtureGame_ws : weightedSum 35 fixtureGame.PrizeTiers = 200 / 7 := by
  have hf : [({ Value := 100, OriginalCount := 50, RemainingCount := 10 } : PrizeTier)].filter
      (fun p => decide (0 < p.RemainingCount ∧ 0 < p.Value)) =
      [{ Value := 100, OriginalCount := 50, RemainingCount := 10 }] := by decide
  show weightedSum 35 [{ Value := 100, OriginalCount := 50, RemainingCount := 10 }] = 200 / 7
  unfold weightedSum
  rw [hf]
  norm_num

/-! ### The claims -/

/-- Claim C1, counterexample.  The claim says a per-link page-fetch failure is
logged and skipped and never aborts the run, only a landing-page transport
failure being fatal.  At these concrete inputs the code does the opposite: a
per-link transport failure hits GamePage's log.Fatal and terminates the whole
process, and a per-link body-read failure ends in a panic rather than a
skipped link. -/
theorem c1_per_link_failure_counterexample :
    runLink FetchResult.transportErr ("https://g/x") = LinkResult.fatal ∧
      runLink (FetchResult.readErr ("read failed")) ("https://g/x") = LinkResult.panicked :=
  ⟨rfl, rfl⟩

/-- Claim C1, amended.  For every discovered game link whose page fetch fails,
the run does not continue past the link: a transport-level failure of the
per-link fetch terminates the whole process via log.Fatal, and a body-read
failure is logged by ParseGame, which returns nil tables, whereupon BuildGame
panics on the missing tables; in neither case does the link contribute a Game,
and in neither case is the link merely skipped. -/
theorem c1_per_link_failure_amended (url e : String) :
    runLink FetchResult.transportErr url = LinkResult.fatal ∧
      runLink (FetchResult.readErr e) url = LinkResult.panicked :=
  ⟨rfl, rfl⟩

/-- Claim C2, evaluation at the failing input.  On a page whose marker
container holds a nested div that closes before a later anchor that is still
inside the marker container, GetLinks returns no links: the depth increment is
dead code (its guard can never hold while the session is active), so the first
div end tag after the marker ends the capture, against the claim that capture
stops only at the marker container's own closing tag (which would capture the
anchor).  On the spec's fixture page, where the marker container holds two
anchors and no nested div closes early, exactly the two hrefs are returned. -/
theorem c2_nested_depth_failing_eval :
    GetLinks nestedDivPage = [] ∧
      GetLinks fixtureLanding = ["https://g/1", "https://g/2"] := by
  constructor
  · rfl
  · rfl

/-- Claim C3.  Game.EV agrees with the spec's reference definition EVspec;
when the game has no remaining prizes the EV is the face price; and whenever
RemainingTickets is nonzero and the probability-weighted sum of the qualifying
tier values is W, the EV is the price minus W. -/
theorem c3_ev_matches_spec (g : Game) :
    g.EV = EVspec g ∧
      (g.TotalRemainingPrizes = 0 → g.EV = (g.Price : ℚ)) ∧
      (∀ W : ℚ, g.RemainingTickets ≠ 0 →
        weightedSum g.RemainingTickets g.PrizeTiers = W →
        g.EV = (g.Price : ℚ) - W) := by
  have hzero : ∀ h0 : g.TotalRemainingPrizes = 0, g.RemainingTickets = 0 := by
    intro h0
    unfold Game.RemainingTickets
    rw [h0]
    norm_num [goRound_zero]
  refine ⟨?_, ?_, ?_⟩
  · unfold Game.EV EVspec Game.RemainingTickets
    by_cases h : goRound (g.Odds * (g.TotalRemainingPrizes : ℚ)) = 0
    · simp [h]
    · simp only [h, if_neg h, expectedWinLoop_eq, zero_add]
  · intro h0
    simp [Game.EV, hzero h0]
  · intro W hrt hW
    simp only [Game.EV, if_neg hrt]
    rw [expectedWinLoop_eq, zero_add, hW]

/-- Claim C3, witness: the fixture game realises every hypothesis. -/
theorem c3_ev_matches_spec_witness :
    fixtureGame.EV = EVspec fixtureGame ∧
      fixtureGameZero.EV = (fixtureGameZero.Price : ℚ) ∧
      fixtureGame.EV = (fixtureGame.Price : ℚ) - 200 / 7 :=
  ⟨(c3_ev_matches_spec fixtureGame).1,
   (c3_ev_matches_spec fixtureGameZero).2.1 rfl,
   (c3_ev_matches_spec fixtureGame).2.2 (200 / 7)
     (by rw [fixtureGame_rt]; decide)
     (by rw [fixtureGame_rt]; exact fixtureGame_ws)⟩

/-- Claim C4.  Building a Game from the fixture metadata table and the fixture
prize table (any header row) yields exactly the claimed field values: Price 5,
Odds 3.5, LaunchDate "2023-01-01", one prize tier {100, 50, 10} with the
2nd-chance row excluded, TotalOriginalPrizes 50 and TotalRemainingPrizes 10. -/
theorem c4_buildGame_fixture (hdr : List String) (name url : String) :
    BuildGame [fixtureMeta, hdr :: fixturePrizeRows] name url =
      some { Name := name, Price := 5, Odds := 7 / 2, LaunchDate := "2023-01-01",
             GameNumber := 0,
             PrizeTiers := [{ Value := 100, OriginalCount := 50, RemainingCount := 10 }],
             TotalOriginalPrizes := 50, TotalRemainingPrizes := 10, URL := url } :=
  buildGame_fixture_eq hdr name url

/-- Claim C5.  When the tables list has fewer than two tables, or its second
table has no rows, BuildGame panics (modelled as `none`) instead of producing
a zero-valued Game; and since ParseGame returns nil tables when a game page's
body read fails, any such page ends the per-link goroutine in a panic that
crashes the process rather than skipping the page. -/
theorem c5_buildGame_panics :
    (∀ (tables : List (List (List String))) (name url : String),
        tables.length < 2 ∨ (∃ m rest, tables = m :: ([] : List (List String)) :: rest) →
        BuildGame tables name url = none) ∧
      (∀ (e url : String), runLink (FetchResult.readErr e) url = LinkResult.panicked) := by
  constructor
  · intro tables name url h
    rcases tables with _ | ⟨t0, _ | ⟨t1, rest⟩⟩
    · rfl
    · rfl
    · rcases h with h | ⟨m, rest2, heq⟩
      · simp only [List.length_cons] at h
        exact absurd h (by omega)
      · injection heq with h1 h2
        injection h2 with h3 h4
        subst h3
        rfl
  · intro e url
    rfl

/-- Claim C5, witness: concrete panicking inputs. -/
theorem c5_buildGame_panics_witness :
    BuildGame [] ("n") ("u") = none ∧
      runLink (FetchResult.readErr ("read failed")) ("https://g/y") = LinkResult.panicked :=
  ⟨c5_buildGame_panics.1 [] ("n") ("u") (Or.inl (by decide)),
   c5_buildGame_panics.2 ("read failed") ("https://g/y")⟩

/-- Claim C6.  The sort main performs before WriteCSV serialises (WriteCSV
emits one row per game in list order) leaves the games in non-increasing EV
order — every earlier row's EV is at least every later row's — and the sorted
list is a permutation of the collected games. -/
theorem c6_report_sorted_desc (gs : List Game) :
    (sortGames gs).Pairwise (fun a b => b.EV ≤ a.EV) ∧
      List.Perm (sortGames gs) gs := by
  induction gs with
  | nil => exact ⟨List.Pairwise.nil, List.Perm.refl []⟩
  | cons g t ih =>
    exact ⟨insertByEV_pairwise g _ ih.1, (insertByEV_perm g _).trans (ih.2.cons g)⟩

/-- Claim C7.  For every odds string "1:X" with a float-parsable, colon-free
right-hand side of value q, parseOdds returns q; for every string not
containing exactly one colon it returns 0; and a right-hand side that does not
parse as a float also yields 0. -/
theorem c7_parseOdds_spec :
    (∀ (x : List Char) (q : ℚ), ':' ∉ x → goParseFloat x = some q →
        parseOdds (String.mk ('1' :: ':' :: x)) = q) ∧
      (∀ s : String, s.data.count ':' ≠ 1 → parseOdds s = 0) ∧
      (∀ (s : String) (a b : List Char), splitOnChar ':' s.data = [a, b] →
        goParseFloat b = none → parseOdds s = 0) := by
  refine ⟨?_, ?_, ?_⟩
  · intro x q hx hq
    have haux : splitOnCharAux ':' x = (x, []) := splitOnCharAux_of_not_mem _ _ hx
    have hsplit : splitOnChar ':' (String.mk ('1' :: ':' :: x)).data = [['1'], x] := by
      simp [splitOnChar, splitOnCharAux, haux]
    unfold parseOdds
    rw [hsplit]
    show (goParseFloat x).getD 0 = q
    rw [hq]
    rfl
  · intro s hc
    have hlen := splitOnCharAux_count ':' s.data
    unfold parseOdds splitOnChar
    rcases h2 : (splitOnCharAux ':' s.data).2 with _ | ⟨b, r⟩
    · rfl
    · rcases r with _ | ⟨b2, r2⟩
      · rw [h2] at hlen
        exact absurd hlen.symm hc
      · rfl
  · intro s a b hsplit hnone
    unfold parseOdds
    rw [hsplit]
    show (goParseFloat b).getD 0 = 0
    rw [hnone]
    rfl

/-- Claim C7, witness: concrete odds strings for each case. -/
theorem c7_parseOdds_spec_witness :
    parseOdds (String.mk ['1', ':', '3', '.', '5', '0']) = 7 / 2 ∧
      parseOdds ("no colons") = 0 ∧ parseOdds ("1:xyz") = 0 :=
  ⟨c7_parseOdds_spec.1 ['3', '.', '5', '0'] (7 / 2) (by decide) goParseFloat_350,
   c7_parseOdds_spec.2.1 ("no colons") (by decide),
   c7_parseOdds_spec.2.2 ("1:xyz") ['1'] ['x', 'y', 'z'] (by decide) (by decide)⟩

/-- Claim C8.  Whatever remains of a price string after removing every dollar
sign and comma, if it is a valid decimal integer (within the 64-bit int range,
as every real price is), parseDollar returns its value — so "$1,000" yields
1000 — and if it is still malformed after the removal, parseDollar returns 0
rather than signalling an error. -/
theorem c8_parseDollar_spec :
    (∀ (s : String) (n : Int), atoiSyntax (stripPrice s.data) = some n →
        intMin64 ≤ n → n ≤ intMax64 → parseDollar s = n) ∧
      (∀ s : String, atoiSyntax (stripPrice s.data) = none → parseDollar s = 0) := by
  constructor
  · intro s n h hlo hhi
    unfold parseDollar goAtoi
    rw [h]
    show (if n > intMax64 then intMax64 else if n < intMin64 then intMin64 else n) = n
    rw [if_neg (not_lt.mpr hhi), if_neg (not_lt.mpr hlo)]
  · intro s h
    unfold parseDollar goAtoi
    rw [h]

/-- Claim C8, witness: the spec's example and a malformed cell. -/
theorem c8_parseDollar_spec_witness :
    parseDollar ("$1,000") = 1000 ∧ parseDollar ("12ab") = 0 :=
  ⟨c8_parseDollar_spec.1 ("$1,000") 1000 (by decide) (by decide) (by decide),
   c8_parseDollar_spec.2 ("12ab") (by decide)⟩

/-- Claim C9.  Every Game BuildGame constructs has TotalOriginalPrizes equal
to the sum of OriginalCount over its PrizeTiers and TotalRemainingPrizes equal
to the sum of RemainingCount over its PrizeTiers.  No later operation changes
them: every Game operation in the program (OriginalTickets, RemainingTickets,
EV, the sort comparison and WriteCSV) only reads the record, and the embedding
accordingly contains no function that produces a modified Game. -/
theorem c9_totals_invariant (tables : List (List (List String))) (name url : String)
    (g : Game) (h : BuildGame tables name url = some g) :
    g.TotalOriginalPrizes = (g.PrizeTiers.map PrizeTier.OriginalCount).sum ∧
      g.TotalRemainingPrizes = (g.PrizeTiers.map PrizeTier.RemainingCount).sum := by
  rcases tables with _ | ⟨meta, _ | ⟨pt, rest⟩⟩
  · exact absurd h (by simp [BuildGame])
  · exact absurd h (by simp [BuildGame])
  · unfold BuildGame at h
    dsimp only at h
    rcases hp : ParsePrizes pt with _ | tiers
    · rw [hp] at h
      exact absurd h (by simp)
    · rw [hp] at h
      dsimp only at h
      injection h with h
      subst h
      have ht := totals_fold_eq tiers 0 0
      show (totals tiers).1 = _ ∧ (totals tiers).2 = _
      unfold totals
      rw [ht]
      simp

/-- Claim C9, witness: the fixture game. -/
theorem c9_totals_invariant_witness :
    fixtureGame.TotalOriginalPrizes =
        (fixtureGame.PrizeTiers.map PrizeTier.OriginalCount).sum ∧
      fixtureGame.TotalRemainingPrizes =
        (fixtureGame.PrizeTiers.map PrizeTier.RemainingCount).sum :=
  c9_totals_invariant [fixtureMeta, ["h", "x", "y"] :: fixturePrizeRows] ("n") ("u")
    fixtureGame (buildGame_fixture_eq ["h", "x", "y"] ("n") ("u"))

/-- Claim C10.  In every state reachable under main's semaphore discipline at
most semCap = 75 goroutines are running, and once the final loop has
reacquired all semCap slots — the point at which main proceeds to sorting and
writing — no goroutine is running, no link is unlaunched and all N tasks have
completed. -/
theorem c10_limiter_bound (N : Nat) (s : OrchState) (h : Reachable N s) :
    s.running ≤ semCap ∧
      (s.fills = semCap → s.running = 0 ∧ s.pending = 0 ∧ s.done = N) := by
  have hi := orch_inv N s h
  unfold OrchInv at hi
  unfold semCap at hi ⊢
  omega

/-- Claim C10, witness: the fully reacquired state of an empty run is
reachable, and there the bound and the completion facts hold. -/
theorem c10_limiter_bound_witness :
    ({ pending := 0, running := 0, done := 0, fills := semCap, slots := semCap } :
        OrchState).running = 0 ∧
      ({ pending := 0, running := 0, done := 0, fills := semCap, slots := semCap } :
        OrchState).done = 0 := by
  have h := c10_limiter_bound 0
    { pending := 0, running := 0, done := 0, fills := semCap, slots := semCap }
    (reach_fill semCap (Nat.le_refl _))
  exact ⟨(h.2 rfl).1, (h.2 rfl).2.2⟩

end Mslotto
